import Mathlib

/-!
Verification of the sdc-amon master/relay core against its source.

The definitions below are a shallow embedding of:
 - src/master/lib/probes.js        (Probe model: construct, validate, serialize,
                                    authorizePut)
 - src/master/lib/app.js           (App.processEvent, App.notifyContact,
                                    App.accountFromLogin)
 - src/unnamed/part_002            (ufdsmodel.js: modelList, modelGet,
                                    modelDelete and their cache discipline)
 - src/unnamed/part_003            (monitors.js: Monitor model,
                                    apiFakeMonitorFault response mapping)
 - src/relay/lib/agentprobes.js    (headAgentProbes, listAgentProbes)
 - src/unnamed/part_004            (the probe-type registry index)

JavaScript truthiness of string fields is modelled by the empty string for
an absent field; boolean-ish attributes are Bool. External collaborators
(MAPI machine API, the operator group, the notification plugins, the
probe-type plugins) are modelled as total oracles, as the spec treats them
as interfaces only.
-/

--------------------------------------------------------------------------
-- Generic string and association-list helpers
--------------------------------------------------------------------------

deriving instance DecidableEq for Except

/-- Does the character list start with the given needle. -/
def charsLeadWith : List Char → List Char → Bool
  | [], _ => true
  | _ :: _, [] => false
  | a :: as, b :: bs => a = b && charsLeadWith as bs

/-- Does the character list contain the needle as a contiguous run. -/
def charsHaveSub (needle : List Char) : List Char → Bool
  | [] => charsLeadWith needle []
  | c :: rest => charsLeadWith needle (c :: rest) || charsHaveSub needle rest

/-- String containment: the needle occurs contiguously inside the message. -/
def hasSub (needle msg : String) : Bool :=
  charsHaveSub needle.toList msg.toList

/-- Lookup in an association list by key. -/
def alookup {κ α : Type} [DecidableEq κ] : List (κ × α) → κ → Option α
  | [], _ => none
  | (k, v) :: rest, key => if k = key then some v else alookup rest key

/-- Insert-or-replace in an association list. -/
def aset {κ α : Type} [DecidableEq κ] : List (κ × α) → κ → α → List (κ × α)
  | [], key, v => [(key, v)]
  | (k, w) :: rest, key, v =>
      if k = key then (key, v) :: rest else (k, w) :: aset rest key v

/-- Delete a key from an association list. -/
def adel {κ α : Type} [DecidableEq κ] : List (κ × α) → κ → List (κ × α)
  | [], _ => []
  | (k, w) :: rest, key => if k = key then rest else (k, w) :: adel rest key

/-- Association lists keyed by strings, the shape of the per-scope caches. -/
abbrev CacheMap (α : Type) := List (String × α)

/-- Map an optional-valued function over a list, failing if any element fails.
Models mapping a throwing constructor over cached data inside a try block. -/
def mapOpt {α β : Type} (f : α → Option β) : List α → Option (List β)
  | [] => some []
  | a :: rest =>
      match f a, mapOpt f rest with
      | some b, some bs => some (b :: bs)
      | _, _ => none

--------------------------------------------------------------------------
-- JSON configs (probe `config` fields)
--------------------------------------------------------------------------

/-- A JSON scalar. The probe configs in the spec are flat objects of
scalars (path, regex, threshold, period). -/
inductive JsonScalar
  | num (n : Int)
  | str (s : String)
  | bool (b : Bool)
deriving DecidableEq

/-- A flat JSON object, the parsed form of a probe config. -/
abbrev JsonObj := List (String × JsonScalar)

/-- A string field holding serialized JSON, as stored in the directory:
either it parses to a value or JSON.parse rejects it. JSON.stringify always
produces a parseable string, and parse after stringify is the identity,
which this representation captures by construction. -/
inductive JsonText
  | invalid (s : String)
  | valid (j : JsonObj)
deriving DecidableEq

--------------------------------------------------------------------------
-- Errors (restify error kinds used by the master)
--------------------------------------------------------------------------

/-- The restify error kinds raised by the model code. `unavailable` stands
for a directory error whose httpCode is 503. -/
inductive RErr
  | missingParameter (msg : String)
  | invalidArgument (msg : String)
  | resourceNotFound (msg : String)
  | internalError (msg : String)
  | unavailable
deriving DecidableEq

/-- Constructor-level errors: a raw JS TypeError or a restify error. -/
inductive CErr
  | typeErr (msg : String)
  | rest (e : RErr)
deriving DecidableEq

--------------------------------------------------------------------------
-- Probe-type plugin registry
--------------------------------------------------------------------------

/-- Modelled from the spec: the probe-type plugin contract (section 4.E),
a value per type with `validateConfig(config)` and a `runInGlobal` flag.
The plugin implementations are external to src/. `validateConfigOk c` is
true iff validateConfig returns without throwing. -/
structure ProbeType where
  runInGlobal : Bool
  validateConfigOk : JsonObj → Bool

/-- The probe-type registry: a map from type name to plugin, as the
amon-plugins index exports it. -/
abbrev Registry := String → Option ProbeType

/-- Modelled from the spec: the concrete registry of src/unnamed/part_004
maps logscan and machine-up. Per the spec (section 3) `global` forces a
probe into the privileged sandbox; a logscan probe runs inside the tenant
machine it watches, so logscan does not declare runInGlobal, while
machine-up observes machine liveness from the node and does. -/
def specPlugins : Registry := fun t =>
  if t = "logscan" then some ⟨false, fun _ => true⟩
  else if t = "machine-up" then some ⟨true, fun _ => true⟩
  else none

/-- The runInGlobal flag of a registered type; false when the type is not
registered (the JS would throw there, and every validated probe has a
registered type). -/
def isRunInGlobal (pl : Registry) (t : String) : Bool :=
  match pl t with
  | some pt => pt.runInGlobal
  | none => false

--------------------------------------------------------------------------
-- Name and UUID validation (probes.js regexes)
--------------------------------------------------------------------------

/-- First character of a valid name: ASCII letter. -/
def nameHeadOk (c : Char) : Bool := c.isAlpha

/-- Later characters of a valid name. -/
def nameTailOk (c : Char) : Bool :=
  c.isAlphanum || c = '_' || c = '.' || c = '-'

/-- The name regex of probes.js and monitors.js:
one letter then up to 31 name characters. -/
def validName (s : String) : Bool :=
  match s.toList with
  | [] => false
  | c :: rest => nameHeadOk c && rest.length ≤ 31 && rest.all nameTailOk

/-- Lowercase hex digit. -/
def hexOk (c : Char) : Bool := c.isDigit || ('a' ≤ c && c ≤ 'f')

/-- The UUID regex of probes.js: 8-4-4-4-12 lowercase hex groups. -/
def uuidOk (s : String) : Bool :=
  let cs := s.toList
  cs.length = 36 &&
    (List.range 36).all fun i =>
      if i = 8 || i = 13 || i = 18 || i = 23 then cs.getD i ' ' = '-'
      else hexOk (cs.getD i ' ')

--------------------------------------------------------------------------
-- Probe model (src/master/lib/probes.js)
--------------------------------------------------------------------------

/-- The raw (directory-native) attribute set of a probe, the `raw` object
the Probe constructor builds and Probe.validate massages. The objectclass
attribute is constant and elided. An absent string attribute is the empty
string; `global` records the truthiness of the stored global attribute. -/
structure RawProbe where
  amonprobe : String
  type : String
  config : Option JsonText
  machine : String
  server : String
  global : Bool
deriving DecidableEq

/-- A constructed Probe instance: its DN, owner, parent monitor and raw
attributes. The JS getters name, type, machine, server, global and config
read through to `raw`. -/
structure Probe where
  dn : String
  user : String
  monitor : String
  raw : RawProbe
deriving DecidableEq

def Probe.name (p : Probe) : String := p.raw.amonprobe

def Probe.type (p : Probe) : String := p.raw.type

def Probe.machine (p : Probe) : String := p.raw.machine

def Probe.server (p : Probe) : String := p.raw.server

def Probe.global (p : Probe) : Bool := p.raw.global

/-- The config getter: JSON.parse of the raw config string. For a probe
that passed validation the raw config is absent or valid, so the throwing
branch of JSON.parse is unreachable and modelled as none. -/
def Probe.config (p : Probe) : Option JsonObj :=
  match p.raw.config with
  | some (.valid j) => some j
  | some (.invalid _) => none
  | none => none

/-- Probe.dn of probes.js: format the DN from user, monitor and name. -/
def Probe.dnOf (user monitor name : String) : String :=
  "amonprobe=" ++ name ++ ", amonmonitor=" ++ monitor ++ ", uuid=" ++ user
    ++ ", ou=users, o=smartdc"

/-- Split a character list on the two-character separator comma-space,
the RDN separator of the DNs this code formats. -/
def splitRdnsAux : List Char → List Char → List (List Char)
  | [], acc => [acc.reverse]
  | ',' :: ' ' :: rest, acc => acc.reverse :: splitRdnsAux rest []
  | c :: rest, acc => splitRdnsAux rest (c :: acc)

/-- Split one RDN into attribute and value at a single equals sign. -/
def splitEq : List Char → List Char → Option (List Char × List Char)
  | [], _ => none
  | '=' :: rest, acc =>
      if rest.contains '=' then none else some (acc.reverse, rest)
  | c :: rest, acc => splitEq rest (c :: acc)

/-- Value of an RDN when its attribute matches the key, else empty. -/
def rdnVal (rdn : List Char) (key : String) : String :=
  match splitEq rdn [] with
  | some (k, v) => if k = key.toList then String.mk v else ""
  | none => ""

/-- Probe.parseDn of probes.js: user from rdns[2].uuid, monitor from
rdns[1].amonmonitor, name from rdns[0].amonprobe. On DNs not of the
formatted shape the JS either throws or yields undefined attributes;
missing pieces are modelled as empty strings, and the theorems about
constructed probes carry nonemptiness hypotheses. -/
def Probe.parseDn (dn : String) : String × String × String :=
  let rdns := splitRdnsAux dn.toList []
  (rdnVal (rdns.getD 2 []) "uuid",
   rdnVal (rdns.getD 1 []) "amonmonitor",
   rdnVal (rdns.getD 0 []) "amonprobe")

/-- The type and config tail of Probe.validate: look the type up in the
plugin registry, parse and validate the config, then set the global flag
when the type declares runInGlobal. -/
def validateTypeConfig (pl : Registry) (raw : RawProbe) : Except RErr RawProbe :=
  match pl raw.type with
  | none => .error (.invalidArgument ("probe type is invalid: " ++ raw.type))
  | some pt =>
      match raw.config with
      | none =>
          .ok (if pt.runInGlobal then { raw with global := true } else raw)
      | some (.invalid s) =>
          .error (.invalidArgument ("probe config, " ++ s ++ ", is invalid"))
      | some (.valid c) =>
          if pt.validateConfigOk c then
            .ok (if pt.runInGlobal then { raw with global := true } else raw)
          else
            .error (.invalidArgument "probe config is invalid")

/-- Probe.validate of probes.js: the required-field checks, the
machine/server exactly-one checks with UUID shape, then type and config.
The dynamic raw dump the JS appends to some messages is elided. -/
def Probe.validate (pl : Registry) (raw : RawProbe) : Except RErr RawProbe :=
  if raw.amonprobe = "" then
    .error (.missingParameter "name is a required parameter for a probe")
  else if raw.type = "" then
    .error (.missingParameter "type is a required parameter for a probe")
  else if raw.machine ≠ "" ∧ raw.server ≠ "" then
    .error (.invalidArgument
      "must specify only one of machine or server for a probe")
  else if raw.machine ≠ "" then
    if uuidOk raw.machine then validateTypeConfig pl raw
    else .error (.invalidArgument ("invalid probe machine UUID: " ++ raw.machine))
  else if raw.server ≠ "" then
    if uuidOk raw.server then validateTypeConfig pl raw
    else .error (.invalidArgument ("invalid probe server UUID: " ++ raw.server))
  else
    .error (.missingParameter
      "must specify one of machine or server for a probe")

/-- The public-form input to the Probe constructor: request params merged
with the body (name, monitor, user from the route; type, config, machine,
server from the body). A `global` key in the body is recorded to show the
constructor ignores it. -/
structure ProbeData where
  name : String
  monitor : String
  user : String
  type : String
  config : Option JsonObj
  machine : String
  server : String
  global : Bool
deriving DecidableEq

/-- The directory-native (UFDS) input to the Probe constructor: the entry
DN plus its attributes. -/
structure UfdsProbeData where
  dn : String
  objectclass : String
  amonprobe : String
  type : String
  config : Option JsonText
  machine : String
  server : String
  global : Bool
deriving DecidableEq

/-- The raw object the constructor builds from public-form data: name,
type and objectclass always; config stringified when present; machine and
server when truthy. No global key is ever copied from the input. -/
def rawOfPublic (d : ProbeData) : RawProbe :=
  { amonprobe := d.name
    type := d.type
    config := d.config.map JsonText.valid
    machine := d.machine
    server := d.server
    global := false }

/-- The raw object the constructor keeps from UFDS data: a copy of the
entry attributes minus the dn, global included. -/
def rawOfUfds (d : UfdsProbeData) : RawProbe :=
  { amonprobe := d.amonprobe
    type := d.type
    config := d.config
    machine := d.machine
    server := d.server
    global := d.global }

/-- The Probe constructor on public-form data: TypeError on a missing
name, monitor or user; then Probe.validateName and Probe.validate. -/
def Probe.fromPublic (pl : Registry) (d : ProbeData) : Except CErr Probe :=
  if d.name = "" then .error (.typeErr "invalid probe data: no name")
  else if d.monitor = "" then .error (.typeErr "invalid probe data: no monitor")
  else if d.user = "" then .error (.typeErr "invalid probe data: no user")
  else if ¬ validName d.name then
    .error (.rest (.invalidArgument ("Probe name is invalid: " ++ d.name)))
  else
    match Probe.validate pl (rawOfPublic d) with
    | .error e => .error (.rest e)
    | .ok raw => .ok ⟨Probe.dnOf d.user d.monitor d.name, d.user, d.monitor, raw⟩

/-- The Probe constructor on UFDS data: TypeError on an objectclass
mismatch; user and monitor are parsed out of the DN; then
Probe.validateName and Probe.validate on the copied attributes. -/
def Probe.fromUfds (pl : Registry) (d : UfdsProbeData) : Except CErr Probe :=
  if d.objectclass ≠ "amonprobe" then
    .error (.typeErr "invalid probe data: objectclass mismatch")
  else if ¬ validName d.amonprobe then
    .error (.rest (.invalidArgument ("Probe name is invalid: " ++ d.amonprobe)))
  else
    match Probe.validate pl (rawOfUfds d) with
    | .error e => .error (.rest e)
    | .ok raw =>
        .ok ⟨d.dn, (Probe.parseDn d.dn).1, (Probe.parseDn d.dn).2.1, raw⟩

/-- The API view Probe.prototype.serialize returns: user, monitor, name,
type always; config, machine, server when truthy; global only when priv
is set and the flag is truthy. Omitted fields are the empty value. -/
structure SerializedProbe where
  user : String
  monitor : String
  name : String
  type : String
  config : Option JsonObj
  machine : String
  server : String
  global : Bool
deriving DecidableEq

def Probe.serialize (p : Probe) (priv : Bool) : SerializedProbe :=
  { user := p.user
    monitor := p.monitor
    name := Probe.name p
    type := Probe.type p
    config := Probe.config p
    machine := Probe.machine p
    server := Probe.server p
    global := priv && Probe.global p }

/-- Re-ingesting a serialization through the public-form constructor:
the serialized fields become the public input data. -/
def publicDataOf (s : SerializedProbe) : ProbeData :=
  { name := s.name
    monitor := s.monitor
    user := s.user
    type := s.type
    config := s.config
    machine := s.machine
    server := s.server
    global := s.global }

--------------------------------------------------------------------------
-- Probe PUT authorization (probes.js authorizePut)
--------------------------------------------------------------------------

/-- The external world authorizePut consults: the machine API (existence
and ownership), the operators group, and the server list. Modelled as
total oracles; transient transport failures, which the JS maps to
InternalError, are outside this model. -/
structure World where
  machineExists : String → Bool
  machineOwner : String → String → Bool
  operator : String → Bool
  serverExists : String → Bool

/-- Outcome of authorizePut. -/
inductive AuthResult
  | ok
  | invalidArgument (msg : String)
  | internalError (msg : String)
deriving DecidableEq

/-- Leading literal part of the not-an-operator message. -/
def operatorMsgHead : String :=
  "Must be operator put a probe on a server (server="

/-- Probe.prototype.authorizePut. With a machine target: a scoped
getMachine succeeds iff the machine exists and the user owns it; on its
404 the operator-runInGlobal-existing-machine fallback is tried; both
failing yields InvalidArgument. With a server target: not an operator is
InvalidArgument, then the server must exist. Neither target set is the
InternalError branch, unreachable for validated probes. -/
def Probe.authorizePut (pl : Registry) (w : World) (p : Probe) : AuthResult :=
  if Probe.machine p ≠ "" then
    if w.machineExists (Probe.machine p) && w.machineOwner p.user (Probe.machine p) then
      .ok
    else if isRunInGlobal pl (Probe.type p) && w.machineExists (Probe.machine p)
        && w.operator p.user then
      .ok
    else
      .invalidArgument ("Invalid machine: machine " ++ Probe.machine p
        ++ " does not exist or is not owned by user " ++ p.user ++ ".")
  else if Probe.server p ≠ "" then
    if !(w.operator p.user) then
      .invalidArgument (operatorMsgHead ++ Probe.server p ++ "): user "
        ++ p.user ++ " is not an operator.")
    else if !(w.serverExists (Probe.server p)) then
      .invalidArgument ("server " ++ Probe.server p ++ " is invalid: no such server")
    else .ok
  else .internalError "Internal error authorizing probe put."

--------------------------------------------------------------------------
-- Event dispatch (app.js processEvent / notifyContact)
--------------------------------------------------------------------------

/-- Modelled from the spec: a contact record (name resolved elsewhere) is
a medium plus uninterpreted plugin data; contact.js itself is not under src/. -/
structure ContactRec where
  medium : String
  data : String
deriving DecidableEq

/-- A monitor as dispatch sees it: its ordered contact names. -/
structure MonitorRec where
  contacts : List String
deriving DecidableEq

/-- The master state dispatch reads: monitors and contacts keyed by
(user, name) as Monitor.get and Contact.get resolve them, and the
notification-plugin registry keyed by medium. The Bool per plugin is
whether its notify call succeeds; failures are logged, never returned.
The cache layer of these lookups is modelled separately with the
ufdsmodel helpers. -/
structure MasterState where
  monitors : List ((String × String) × MonitorRec)
  contacts : List ((String × String) × ContactRec)
  plugins : List (String × Bool)

/-- The probe block of an inbound event; processEvent reads its user,
monitor and name. -/
structure EventProbe where
  user : String
  monitor : String
  name : String
  type : String
deriving DecidableEq

/-- An inbound event (spec section 6 wire format, fields dispatch uses). -/
structure Event where
  v : Nat
  type : String
  user : String
  monitor : String
  clear : Bool
  uuid : String
  probe : EventProbe
deriving DecidableEq

/-- One notify invocation: App.notifyContact calls
plugin.notify(event.probe.name, contact.data, a placeholder message). -/
structure NotifyCall where
  probeName : String
  recipient : String
  message : String
  medium : String
deriving DecidableEq

/-- App.notifyContact: no plugin for the medium is an error the caller
logs and swallows; otherwise notify is invoked (its own failure is also
only logged). Returns the calls made. -/
def notifyContact (st : MasterState) (probeName : String) (c : ContactRec) :
    List NotifyCall :=
  match alookup st.plugins c.medium with
  | none => []
  | some _ => [⟨probeName, c.data, "XXX message", c.medium⟩]

/-- getAndNotifyContact of processEvent: a contact that fails to resolve
is logged and skipped; otherwise notifyContact runs and its error, if
any, is logged and swallowed. -/
def getAndNotifyContact (st : MasterState) (user probeName contactName : String) :
    List NotifyCall :=
  match alookup st.contacts (user, contactName) with
  | none => []
  | some c => notifyContact st probeName c

/-- App.processEvent: resolve the monitor of event.probe; a lookup error
is returned to the caller unchanged. On success every contact name is
processed and the overall callback always succeeds, whatever the
individual notification outcomes. -/
def processEvent (st : MasterState) (ev : Event) :
    Except RErr (List NotifyCall) :=
  match alookup st.monitors (ev.probe.user, ev.probe.monitor) with
  | none => .error (.resourceNotFound "not found")
  | some mon =>
      .ok (mon.contacts.flatMap (getAndNotifyContact st ev.probe.user ev.probe.name))

/-- The response mapping of apiFakeMonitorFault around processEvent
(monitors.js): a processEvent error becomes a 500 InternalError response,
success a 200 with success true. -/
def fakeFaultRespCode (r : Except RErr (List NotifyCall)) : Nat :=
  match r with
  | .error _ => 500
  | .ok _ => 200

--------------------------------------------------------------------------
-- ufdsmodel.js cache discipline (src/unnamed/part_002)
--------------------------------------------------------------------------

/-- A cached single-entity result: the error or the serialized data, as
modelGet stores it. Modelled from the spec for the container itself
(app.cacheGet, cacheSet and cacheDel live outside src/): a bounded
TTL+LRU map, modelled as an association list without the time dimension. -/
structure CachedOne (Entry : Type) where
  err : Option RErr
  data : Option Entry
deriving DecidableEq

/-- A cached list result, as modelList stores it. -/
structure CachedMany (Entry : Type) where
  err : Option RErr
  data : Option (List Entry)
deriving DecidableEq

/-- Outcome of one app.ufdsSearch call, the oracle the helpers consume:
entries, a 503 unavailable error, NoSuchObject, or some other error. -/
inductive UfdsOut (Entry : Type)
  | ok (entries : List Entry)
  | unavailable
  | noSuchObject
  | err (e : RErr)

/-- The fresh-search tail of modelGet. A 503 is returned uncached. A
NoSuchObject becomes a cached ResourceNotFound. Another error is cached.
A single entry is constructed (a construction throw is an uncached
InternalError) and cached serialized; zero or several entries are an
uncached InternalError. All writes are skipped under skipCache. -/
def modelGetFresh {Entry Item : Type} (con : Entry → Option Item)
    (ser : Item → Entry) (g : CacheMap (CachedOne Entry)) (dn : String)
    (skipCache : Bool) (search : UfdsOut Entry) :
    Except RErr Item × CacheMap (CachedOne Entry) :=
  match search with
  | .unavailable => (.error .unavailable, g)
  | .noSuchObject =>
      (.error (.resourceNotFound "not found"),
       if skipCache then g
       else aset g dn ⟨some (.resourceNotFound "not found"), none⟩)
  | .err e =>
      (.error e, if skipCache then g else aset g dn ⟨some e, none⟩)
  | .ok entries =>
      match entries with
      | [entry] =>
          match con entry with
          | some item =>
              (.ok item,
               if skipCache then g else aset g dn ⟨none, some (ser item)⟩)
          | none => (.error (.internalError "invalid entry"), g)
      | _ => (.error (.internalError "conflicting entries"), g)

/-- ufdsmodel.modelGet. Unless skipCache is set, a cached error or a
cached reconstructable entry is returned; cached data that no longer
constructs is dropped from the cache and the search runs. -/
def modelGet {Entry Item : Type} (con : Entry → Option Item)
    (ser : Item → Entry) (g : CacheMap (CachedOne Entry)) (dn : String)
    (skipCache : Bool) (search : UfdsOut Entry) :
    Except RErr Item × CacheMap (CachedOne Entry) :=
  if skipCache then modelGetFresh con ser g dn skipCache search
  else
    match alookup g dn with
    | none => modelGetFresh con ser g dn skipCache search
    | some c =>
        match c.err with
        | some e => (.error e, g)
        | none =>
            match c.data.bind con with
            | some item => (.ok item, g)
            | none => modelGetFresh con ser (adel g dn) dn skipCache search

/-- The fresh-search tail of modelList. A 503 is returned uncached; any
other error is cached; entries that fail construction are skipped and the
survivors are returned and cached serialized. -/
def modelListFresh {Entry Item : Type} (con : Entry → Option Item)
    (ser : Item → Entry) (l : CacheMap (CachedMany Entry)) (parentDn : String)
    (search : UfdsOut Entry) :
    Except RErr (List Item) × CacheMap (CachedMany Entry) :=
  match search with
  | .unavailable => (.error .unavailable, l)
  | .noSuchObject =>
      (.error (.resourceNotFound "no such object"),
       aset l parentDn ⟨some (.resourceNotFound "no such object"), none⟩)
  | .err e => (.error e, aset l parentDn ⟨some e, none⟩)
  | .ok entries =>
      let items := entries.filterMap con
      (.ok items, aset l parentDn ⟨none, some (items.map ser)⟩)

/-- ufdsmodel.modelList. A cached error or fully reconstructable cached
list is returned; cached data with any entry that no longer constructs is
dropped and the search runs. -/
def modelList {Entry Item : Type} (con : Entry → Option Item)
    (ser : Item → Entry) (l : CacheMap (CachedMany Entry)) (parentDn : String)
    (search : UfdsOut Entry) :
    Except RErr (List Item) × CacheMap (CachedMany Entry) :=
  match alookup l parentDn with
  | none => modelListFresh con ser l parentDn search
  | some c =>
      match c.err with
      | some e => (.error e, l)
      | none =>
          match c.data with
          | some ds =>
              match mapOpt con ds with
              | some items => (.ok items, l)
              | none => modelListFresh con ser (adel l parentDn) parentDn search
          | none => modelListFresh con ser (adel l parentDn) parentDn search

/-- ufdsmodel.modelDelete: get the item first with the cache bypassed; a
get error aborts before any directory delete. Then app.ufdsDelete runs
(delErr is its outcome); only on its success are the get entry at the DN
and the list entry at the parent DN invalidated (the invalidation pair is
modelled from the spec, cacheInvalidateDelete being outside src/). The
Bool of the result records whether the directory delete was attempted. -/
def modelDelete {Entry Item : Type} (con : Entry → Option Item)
    (ser : Item → Entry) (g : CacheMap (CachedOne Entry))
    (l : CacheMap (CachedMany Entry)) (dn : String) (search : UfdsOut Entry)
    (delErr : Option RErr) (parentDnOf : Item → String) :
    Except RErr Unit × CacheMap (CachedOne Entry) × CacheMap (CachedMany Entry) × Bool :=
  match modelGet con ser g dn true search with
  | (.error e, g2) => (.error e, g2, l, false)
  | (.ok item, g2) =>
      match delErr with
      | some e => (.error e, g2, l, true)
      | none => (.ok (), adel g2 dn, adel l (parentDnOf item), true)

--------------------------------------------------------------------------
-- Account lookup cache (app.js accountFromLogin)
--------------------------------------------------------------------------

/-- An account record as the login search returns it. -/
structure Account where
  login : String
  uuid : String
deriving DecidableEq

/-- An error from the raw LDAP login search; the flag marks a transient
directory-unavailable (503-kind) failure. -/
structure LdapErr where
  unavailable : Bool
  msg : String
deriving DecidableEq

/-- The value accountFromLogin caches per login: the error or the account
(absent account is the cached negative answer for an unknown login). -/
structure CachedAcct where
  err : Option LdapErr
  account : Option Account
deriving DecidableEq

/-- Outcome of the raw LDAP search accountFromLogin runs: an error event,
or the end event with a result status and the matched entries. -/
inductive LoginSearchOut
  | fail (e : LdapErr)
  | done (status : Nat) (accounts : List Account)

/-- The login character rule of accountFromLogin (a letter then at least
one letter, digit, underscore, dot or at sign). -/
def validLogin (s : String) : Bool :=
  match s.toList with
  | [] => false
  | c :: rest =>
      c.isAlpha && rest.length ≥ 1 &&
        rest.all fun d => d.isAlphanum || d = '_' || d = '.' || d = '@'

/-- App.accountFromLogin. An invalid login throws (modelled as an error
without caching). A cached error or account is returned. Otherwise the
search outcome is cached and returned, every branch through
cacheAndCallback: the error event, a nonzero status, zero accounts (a
cached negative answer), one account, or several accounts. No outcome is
exempted from caching. -/
def accountFromLogin (cache : CacheMap CachedAcct) (login : String)
    (out : LoginSearchOut) :
    Except LdapErr (Option Account) × CacheMap CachedAcct :=
  if ¬ validLogin login then
    (.error ⟨false, "invalid characters in login"⟩, cache)
  else
    match alookup cache login with
    | some c =>
        match c.err with
        | some e => (.error e, cache)
        | none => (.ok c.account, cache)
    | none =>
        match out with
        | .fail e => (.error e, aset cache login ⟨some e, none⟩)
        | .done status accounts =>
            if status ≠ 0 then
              let e : LdapErr := ⟨false, "non-zero status from LDAP search"⟩
              (.error e, aset cache login ⟨some e, none⟩)
            else
              match accounts with
              | [] => (.ok none, aset cache login ⟨none, none⟩)
              | [a] => (.ok (some a), aset cache login ⟨none, some a⟩)
              | _ =>
                  let e : LdapErr := ⟨false, "unexpected number of accounts"⟩
                  (.error e, aset cache login ⟨some e, none⟩)

--------------------------------------------------------------------------
-- Relay agentprobes endpoints (src/relay/lib/agentprobes.js)
--------------------------------------------------------------------------

/-- A relay HTTP response: a JSON body, a Content-MD5 header with an
empty body, or an internal error. -/
inductive RelayRes (α : Type)
  | okBody (status : Nat) (body : List α)
  | okMD5 (status : Nat) (contentMD5 : String)
  | internalError (status : Nat)
deriving DecidableEq

/-- headAgentProbes: read the .content-md5 file for the target. When the
file exists its content is returned as the Content-MD5 header of a 200.
When the read fails the ENOENT empty-list branch is disabled in the
source by a constant false in its condition, so a missing file falls
through to the 500 InternalError path like any other read error. -/
def headAgentProbes {α : Type} (md5File : Option String) : RelayRes α :=
  match md5File with
  | some data => .okMD5 200 data
  | none => .internalError 500

/-- listAgentProbes: read the .json manifest for the target. A missing
file (ENOENT) is served as a 200 with an empty list; otherwise the parsed
stored body is served with a 200. -/
def listAgentProbes {α : Type} (jsonFile : Option (List α)) : RelayRes α :=
  match jsonFile with
  | some probes => .okBody 200 probes
  | none => .okBody 200 []

--------------------------------------------------------------------------
-- Concrete example data for witnesses and counterexamples
--------------------------------------------------------------------------

/-- A well-formed machine UUID. -/
def uuidA : String := "aaaaaaaa-aaaa-aaaa-aaaa-aaaaaaaaaaaa"

/-- A second well-formed UUID, used as a server or owner id. -/
def uuidB : String := "bbbbbbbb-bbbb-bbbb-bbbb-bbbbbbbbbbbb"

/-- Raw probe data with both machine and server set. -/
def rawBoth : RawProbe :=
  { amonprobe := "p1", type := "logscan", config := none
    machine := uuidA, server := uuidB, global := false }

/-- Raw probe data with neither machine nor server set. -/
def rawNeither : RawProbe :=
  { amonprobe := "p1", type := "logscan", config := none
    machine := "", server := "", global := false }

/-- A directory entry whose stored global attribute is truthy although
its type, logscan, does not declare runInGlobal. Probe.validate never
clears a global flag, so this entry constructs with global kept true. -/
def staleUfds : UfdsProbeData :=
  { dn := Probe.dnOf uuidA "mon1" "p1"
    objectclass := "amonprobe"
    amonprobe := "p1"
    type := "logscan"
    config := none
    machine := uuidA
    server := ""
    global := true }

/-- The same directory entry with its global attribute consistent with
the registry (absent, as logscan is not runInGlobal). -/
def goodUfds : UfdsProbeData := { staleUfds with global := false }

/-- The instance Probe.fromUfds yields on goodUfds. -/
def goodP1 : Probe :=
  ⟨Probe.dnOf uuidA "mon1" "p1", uuidA, "mon1",
   { amonprobe := "p1", type := "logscan", config := none
     machine := uuidA, server := "", global := false }⟩

/-- The global flag of a construction result, when it succeeded. -/
def globalOf (r : Except CErr Probe) : Option Bool :=
  match r with
  | .ok p => some (Probe.global p)
  | .error _ => none

/-- The type of a construction result, when it succeeded. -/
def typeOf (r : Except CErr Probe) : Option String :=
  match r with
  | .ok p => some (Probe.type p)
  | .error _ => none

/-- Construct from UFDS data, serialize privately, re-ingest through the
public constructor, and report both global flags when both constructions
succeed. -/
def roundTripGlobal (pl : Registry) (d : UfdsProbeData) : Option (Bool × Bool) :=
  match Probe.fromUfds pl d with
  | .ok p1 =>
      match Probe.fromPublic pl (publicDataOf (Probe.serialize p1 true)) with
      | .ok p2 => some (Probe.global p1, Probe.global p2)
      | .error _ => none
  | .error _ => none

/-- Public-form input whose type declares runInGlobal; its global body
key is set to true only to show the constructor never reads it. -/
def pubData : ProbeData :=
  { name := "p1", monitor := "mon1", user := uuidA, type := "machine-up"
    config := none, machine := uuidA, server := "", global := true }

/-- The instance Probe.fromPublic yields on pubData. -/
def pubProbe : Probe :=
  ⟨Probe.dnOf uuidA "mon1" "p1", uuidA, "mon1",
   { amonprobe := "p1", type := "machine-up", config := none
     machine := uuidA, server := "", global := true }⟩

/-- A world where uuidA is a machine owned by uuidB, who is no operator. -/
def wOwned : World :=
  { machineExists := fun m => m == uuidA
    machineOwner := fun u m => u == uuidB && m == uuidA
    operator := fun _ => false
    serverExists := fun _ => false }

/-- A probe of user uuidB targeting machine uuidA. -/
def probeMachine : Probe :=
  ⟨Probe.dnOf uuidB "mon1" "p1", uuidB, "mon1",
   { amonprobe := "p1", type := "logscan", config := none
     machine := uuidA, server := "", global := false }⟩

/-- A master state with no monitors, contacts or plugins. -/
def emptyMaster : MasterState := ⟨[], [], []⟩

/-- An inbound probe event for monitor mon1 of user uuidA. -/
def exEvent : Event :=
  { v := 1, type := "probe", user := uuidA, monitor := "mon1"
    clear := false, uuid := "11111111-aaaa-aaaa-aaaa-aaaaaaaaaaaa"
    probe := ⟨uuidA, "mon1", "whistlelog", "logscan"⟩ }

/-- A master state where monitor mon1 lists an unresolvable contact name
ghost and a valid contact good whose email plugin fails on notify. -/
def c4State : MasterState :=
  { monitors := [((uuidA, "mon1"), ⟨["ghost", "good"]⟩)]
    contacts := [((uuidA, "good"), ⟨"email", "addr"⟩)]
    plugins := [("email", false)] }

/-- A transient directory-unavailable error. -/
def unavailableErr : LdapErr := ⟨true, "ldap unavailable"⟩

/-- Toy cache entry construction for the generic helpers: even numbers
construct, odd numbers throw. -/
def parityCon : Nat → Option Nat := fun n => if n % 2 = 0 then some n else none

/-- A get cache holding a stale negative entry at DN d. -/
def staleGetCache : CacheMap (CachedOne Nat) :=
  [("d", ⟨some (.resourceNotFound "stale"), none⟩)]

/-- A list cache holding a stale negative entry at the parent DN. -/
def staleListCache : CacheMap (CachedMany Nat) :=
  [("parent", ⟨some (.resourceNotFound "stale"), none⟩)]

--------------------------------------------------------------------------
-- Helper lemmas
--------------------------------------------------------------------------

theorem toList_append (s t : String) : (s ++ t).toList = s.toList ++ t.toList := by
  cases s
  cases t
  rfl

theorem charsLeadWith_append (n xs ys : List Char)
    (h : charsLeadWith n xs = true) : charsLeadWith n (xs ++ ys) = true := by
  induction n generalizing xs with
  | nil => simp [charsLeadWith]
  | cons a as ih =>
    cases xs with
    | nil => simp [charsLeadWith] at h
    | cons b bs =>
      simp only [charsLeadWith, Bool.and_eq_true, decide_eq_true_eq] at h
      simp only [List.cons_append, charsLeadWith, Bool.and_eq_true,
        decide_eq_true_eq]
      exact ⟨h.1, ih bs h.2⟩

theorem charsHaveSub_nil (l : List Char) : charsHaveSub [] l = true := by
  cases l <;> simp [charsHaveSub, charsLeadWith]

theorem charsHaveSub_append_left (n l1 l2 : List Char)
    (h : charsHaveSub n l1 = true) : charsHaveSub n (l1 ++ l2) = true := by
  induction l1 with
  | nil =>
    cases n with
    | nil => exact charsHaveSub_nil l2
    | cons a as => simp [charsHaveSub, charsLeadWith] at h
  | cons c rest ih =>
    simp only [charsHaveSub, Bool.or_eq_true] at h
    simp only [List.cons_append, charsHaveSub, Bool.or_eq_true]
    rcases h with hl | hr
    · exact Or.inl (by
        have := charsLeadWith_append n (c :: rest) l2 hl
        simpa using this)
    · exact Or.inr (ih hr)

theorem hasSub_append_left (n a b : String) (h : hasSub n a = true) :
    hasSub n (a ++ b) = true := by
  unfold hasSub at h ⊢
  rw [toList_append]
  exact charsHaveSub_append_left _ _ _ h

theorem hasSub_operatorMsg (rest : String) :
    hasSub "operator" (operatorMsgHead ++ rest) = true :=
  hasSub_append_left _ _ _ (by decide)

theorem validateTypeConfig_ok_iff (pl : Registry) (raw raw2 : RawProbe) :
    validateTypeConfig pl raw = .ok raw2 ↔
      ∃ pt, pl raw.type = some pt ∧
        (match raw.config with
         | none => True
         | some (.invalid _) => False
         | some (.valid c) => pt.validateConfigOk c = true) ∧
        raw2 = (if pt.runInGlobal then { raw with global := true } else raw) := by
  unfold validateTypeConfig
  cases hp : pl raw.type with
  | none => simp
  | some pt =>
    cases hc : raw.config with
    | none =>
      simp only [Except.ok.injEq, Option.some.injEq]
      constructor
      · rintro rfl
        exact ⟨pt, rfl, trivial, rfl⟩
      · rintro ⟨pt2, rfl, -, hr⟩
        exact hr.symm
    | some jt =>
      cases jt with
      | invalid s => simp
      | valid c =>
        by_cases hv : pt.validateConfigOk c = true
        · dsimp only
          rw [if_pos hv]
          simp only [Except.ok.injEq, Option.some.injEq]
          constructor
          · rintro rfl
            exact ⟨pt, rfl, hv, rfl⟩
          · rintro ⟨pt2, rfl, -, hr⟩
            exact hr.symm
        · dsimp only
          rw [if_neg hv]
          simp only [Option.some.injEq]
          constructor
          · intro h
            cases h
          · rintro ⟨pt2, rfl, hv2, -⟩
            exact absurd hv2 hv

theorem validateTypeConfig_fields (pl : Registry) (raw raw2 : RawProbe)
    (h : validateTypeConfig pl raw = .ok raw2) :
    raw2.amonprobe = raw.amonprobe ∧ raw2.type = raw.type ∧
    raw2.config = raw.config ∧ raw2.machine = raw.machine ∧
    raw2.server = raw.server := by
  obtain ⟨pt, -, -, rfl⟩ := (validateTypeConfig_ok_iff pl raw raw2).mp h
  by_cases hg : pt.runInGlobal = true
  · rw [if_pos hg]
    exact ⟨rfl, rfl, rfl, rfl, rfl⟩
  · rw [if_neg hg]
    exact ⟨rfl, rfl, rfl, rfl, rfl⟩

theorem validateTypeConfig_global (pl : Registry) (raw raw2 : RawProbe)
    (h : validateTypeConfig pl raw = .ok raw2) :
    raw2.global = (raw.global || isRunInGlobal pl raw.type) := by
  obtain ⟨pt, hpt, -, rfl⟩ := (validateTypeConfig_ok_iff pl raw raw2).mp h
  unfold isRunInGlobal
  rw [hpt]
  dsimp only
  by_cases hg : pt.runInGlobal = true
  · rw [if_pos hg, hg]
    simp
  · rw [if_neg hg]
    simp [Bool.eq_false_iff.mpr hg]

theorem validate_ok_iff (pl : Registry) (raw raw2 : RawProbe) :
    Probe.validate pl raw = .ok raw2 ↔
      raw.amonprobe ≠ "" ∧ raw.type ≠ "" ∧
      ((raw.machine ≠ "" ∧ raw.server = "" ∧ uuidOk raw.machine = true) ∨
       (raw.machine = "" ∧ raw.server ≠ "" ∧ uuidOk raw.server = true)) ∧
      validateTypeConfig pl raw = .ok raw2 := by
  unfold Probe.validate
  by_cases h1 : raw.amonprobe = ""
  · simp [h1]
  rw [if_neg h1]
  by_cases h2 : raw.type = ""
  · simp [h1, h2]
  rw [if_neg h2]
  by_cases h3 : raw.machine ≠ "" ∧ raw.server ≠ ""
  · rw [if_pos h3]
    constructor
    · intro h
      cases h
    · rintro ⟨-, -, ⟨-, hs, -⟩ | ⟨hm, -, -⟩, -⟩
      · exact absurd hs h3.2
      · exact absurd hm h3.1
  rw [if_neg h3]
  by_cases h4 : raw.machine ≠ ""
  · rw [if_pos h4]
    have hs : raw.server = "" := by
      by_contra hs
      exact h3 ⟨h4, hs⟩
    by_cases h5 : uuidOk raw.machine = true
    · rw [if_pos h5]
      constructor
      · intro h
        exact ⟨h1, h2, Or.inl ⟨h4, hs, h5⟩, h⟩
      · rintro ⟨-, -, -, h⟩
        exact h
    · rw [if_neg h5]
      constructor
      · intro h
        cases h
      · rintro ⟨-, -, ⟨-, -, h5x⟩ | ⟨hm, -, -⟩, -⟩
        · exact absurd h5x h5
        · exact absurd hm h4
  rw [if_neg h4]
  have hm : raw.machine = "" := not_not.mp h4
  by_cases h6 : raw.server ≠ ""
  · rw [if_pos h6]
    by_cases h7 : uuidOk raw.server = true
    · rw [if_pos h7]
      constructor
      · intro h
        exact ⟨h1, h2, Or.inr ⟨hm, h6, h7⟩, h⟩
      · rintro ⟨-, -, -, h⟩
        exact h
    · rw [if_neg h7]
      constructor
      · intro h
        cases h
      · rintro ⟨-, -, ⟨hmx, -, -⟩ | ⟨-, -, h7x⟩, -⟩
        · exact absurd hm hmx
        · exact absurd h7x h7
  · rw [if_neg h6]
    have hs : raw.server = "" := not_not.mp h6
    constructor
    · intro h
      cases h
    · rintro ⟨-, -, ⟨hmx, -, -⟩ | ⟨-, hsx, -⟩, -⟩
      · exact absurd hm hmx
      · exact absurd hs hsx

--------------------------------------------------------------------------
-- Claim theorems
--------------------------------------------------------------------------

/-- Claim C1: for probe validation (shared by the public and the
directory-native constructor), given the required name and type fields are
present, setting both machine and server fails with InvalidArgument whose
message mentions only one; setting neither fails with MissingParameter
whose message mentions machine and server; and every raw object that
validates successfully has exactly one of the two non-empty. -/
theorem amon_c1 (pl : Registry) (raw : RawProbe)
    (hname : raw.amonprobe ≠ "") (htype : raw.type ≠ "") :
    (raw.machine ≠ "" → raw.server ≠ "" →
      ∃ msg, Probe.validate pl raw = .error (.invalidArgument msg) ∧
        hasSub "only one" msg = true) ∧
    (raw.machine = "" → raw.server = "" →
      ∃ msg, Probe.validate pl raw = .error (.missingParameter msg) ∧
        hasSub "machine" msg = true ∧ hasSub "server" msg = true) ∧
    (∀ raw2, Probe.validate pl raw = .ok raw2 →
      (raw2.machine ≠ "" ∧ raw2.server = "") ∨
      (raw2.machine = "" ∧ raw2.server ≠ "")) := by
  refine ⟨?_, ?_, ?_⟩
  · intro hm hs
    have heq : Probe.validate pl raw = .error (.invalidArgument
        "must specify only one of machine or server for a probe") := by
      unfold Probe.validate
      rw [if_neg hname, if_neg htype, if_pos ⟨hm, hs⟩]
    exact ⟨_, heq, by decide⟩
  · intro hm hs
    have heq : Probe.validate pl raw = .error (.missingParameter
        "must specify one of machine or server for a probe") := by
      unfold Probe.validate
      rw [if_neg hname, if_neg htype,
        if_neg (fun h => h.1 hm), if_neg (fun h => h hm), if_neg (fun h => h hs)]
    exact ⟨_, heq, by decide, by decide⟩
  · intro raw2 hok
    obtain ⟨-, -, htgt, htc⟩ := (validate_ok_iff pl raw raw2).mp hok
    obtain ⟨-, -, -, hfm, hfs⟩ := validateTypeConfig_fields pl raw raw2 htc
    rw [hfm, hfs]
    rcases htgt with ⟨hm, hs, -⟩ | ⟨hm, hs, -⟩
    · exact Or.inl ⟨hm, hs⟩
    · exact Or.inr ⟨hm, hs⟩

theorem amon_c1_witness :
    rawBoth.machine ≠ "" ∧ rawBoth.server ≠ "" ∧
    (∃ msg, Probe.validate specPlugins rawBoth = .error (.invalidArgument msg) ∧
      hasSub "only one" msg = true) :=
  ⟨by decide, by decide,
   (amon_c1 specPlugins rawBoth (by decide) (by decide)).1 (by decide) (by decide)⟩

/-- Claim C2: for a validated probe (exactly one target set, its type
registered), authorizePut succeeds iff the account owns the existing
target machine, or the target is a server and the account is an operator
and the server exists, or the target machine exists unowned by the
account while the type is runInGlobal and the account is an operator; all
other outcomes are InvalidArgument, and a non-operator putting a
server-targeted probe gets a message mentioning operator. The external
machine, operator and server oracles are total here; transient transport
failures, which the source maps to InternalError, are out of scope. -/
theorem amon_c2 (pl : Registry) (w : World) (p : Probe)
    (hone : (Probe.machine p ≠ "" ∧ Probe.server p = "") ∨
            (Probe.machine p = "" ∧ Probe.server p ≠ ""))
    (_hreg : (pl (Probe.type p)).isSome = true) :
    (Probe.authorizePut pl w p = .ok ↔
      (Probe.machine p ≠ "" ∧ w.machineExists (Probe.machine p) = true ∧
        w.machineOwner p.user (Probe.machine p) = true) ∨
      (Probe.server p ≠ "" ∧ w.operator p.user = true ∧
        w.serverExists (Probe.server p) = true) ∨
      (Probe.machine p ≠ "" ∧ w.machineExists (Probe.machine p) = true ∧
        w.machineOwner p.user (Probe.machine p) = false ∧
        isRunInGlobal pl (Probe.type p) = true ∧ w.operator p.user = true)) ∧
    (Probe.authorizePut pl w p ≠ .ok →
      ∃ msg, Probe.authorizePut pl w p = .invalidArgument msg) ∧
    (Probe.server p ≠ "" → w.operator p.user = false →
      ∃ msg, Probe.authorizePut pl w p = .invalidArgument msg ∧
        hasSub "operator" msg = true) := by
  obtain ⟨hm, hs⟩ | ⟨hm, hs⟩ := hone
  · refine ⟨?_, ?_, ?_⟩
    · unfold Probe.authorizePut
      rw [if_pos hm]
      cases hE : w.machineExists (Probe.machine p) <;>
        cases hO : w.machineOwner p.user (Probe.machine p) <;>
        cases hR : isRunInGlobal pl (Probe.type p) <;>
        cases hP : w.operator p.user <;>
        simp_all [hm, hs]
    · unfold Probe.authorizePut
      rw [if_pos hm]
      cases hE : w.machineExists (Probe.machine p) <;>
        cases hO : w.machineOwner p.user (Probe.machine p) <;>
        cases hR : isRunInGlobal pl (Probe.type p) <;>
        cases hP : w.operator p.user <;>
        simp_all
    · intro hsx
      exact absurd hs hsx
  · refine ⟨?_, ?_, ?_⟩
    · unfold Probe.authorizePut
      rw [if_neg (fun h => h hm), if_pos hs]
      cases hP : w.operator p.user <;>
        cases hSE : w.serverExists (Probe.server p) <;>
        simp_all [hm, hs]
    · unfold Probe.authorizePut
      rw [if_neg (fun h => h hm), if_pos hs]
      cases hP : w.operator p.user <;>
        cases hSE : w.serverExists (Probe.server p) <;>
        simp_all
    · intro hsx hP
      refine ⟨operatorMsgHead ++ Probe.server p ++ "): user "
        ++ p.user ++ " is not an operator.", ?_, ?_⟩
      · unfold Probe.authorizePut
        rw [if_neg (fun h => h hm), if_pos hs, if_pos (by rw [hP]; rfl)]
      · simp only [String.append_assoc]
        exact hasSub_operatorMsg _

theorem amon_c2_witness :
    ((probeMachine.raw.machine ≠ "" ∧ probeMachine.raw.server = "") ∧
      (specPlugins (Probe.type probeMachine)).isSome = true) ∧
    Probe.authorizePut specPlugins wOwned probeMachine = .ok :=
  ⟨⟨⟨by decide, by decide⟩, by decide⟩,
   (amon_c2 specPlugins wOwned probeMachine (Or.inl ⟨by decide, by decide⟩)
     (by decide)).1.mpr (Or.inl ⟨by decide, by decide, by decide⟩)⟩

/-- Claim C3 (amended): when the monitor named in an event does not exist
for that user, processEvent does not drop the event silently: it fails
with the monitor lookup error, which its caller receives; the fakefault
endpoint maps that failure to a 500 response. (Unknown contacts, by
contrast, are dropped with a warning without failing the request.) -/
theorem amon_c3 (st : MasterState) (ev : Event)
    (hm : alookup st.monitors (ev.probe.user, ev.probe.monitor) = none) :
    processEvent st ev = .error (.resourceNotFound "not found") ∧
    fakeFaultRespCode (processEvent st ev) = 500 := by
  unfold processEvent
  rw [hm]
  exact ⟨rfl, rfl⟩

theorem amon_c3_witness :
    alookup emptyMaster.monitors (exEvent.probe.user, exEvent.probe.monitor) = none ∧
    (processEvent emptyMaster exEvent = .error (.resourceNotFound "not found") ∧
     fakeFaultRespCode (processEvent emptyMaster exEvent) = 500) :=
  ⟨by decide, amon_c3 emptyMaster exEvent (by decide)⟩

/-- Claim C3 counterexample: with no monitor mon1 stored, processEvent on
an event naming it returns an error rather than completing successfully,
and the fakefault caller turns that into a 500 — against the claim that
the event is dropped with a warning and no error ever surfaces. -/
theorem amon_c3_cex :
    processEvent emptyMaster exEvent = .error (.resourceNotFound "not found") ∧
    fakeFaultRespCode (processEvent emptyMaster exEvent) = 500 := by
  decide

/-- Claim C4: whenever the monitor of an event resolves, processEvent
completes successfully whatever the individual notification outcomes, and
every contact name on the monitor that resolves to a contact with a
registered notification plugin receives its notify call, independent of
the other (possibly unresolvable) names on the contact list and of
whether the notify itself fails. -/
theorem amon_c4 (st : MasterState) (ev : Event) (mon : MonitorRec)
    (hm : alookup st.monitors (ev.probe.user, ev.probe.monitor) = some mon)
    (good : String) (c : ContactRec) (ok : Bool)
    (hg : good ∈ mon.contacts)
    (hc : alookup st.contacts (ev.probe.user, good) = some c)
    (hp : alookup st.plugins c.medium = some ok) :
    ∃ calls, processEvent st ev = .ok calls ∧
      (⟨ev.probe.name, c.data, "XXX message", c.medium⟩ : NotifyCall) ∈ calls := by
  unfold processEvent
  rw [hm]
  refine ⟨_, rfl, ?_⟩
  refine List.mem_flatMap.mpr ⟨good, hg, ?_⟩
  unfold getAndNotifyContact
  rw [hc]
  dsimp only
  unfold notifyContact
  rw [hp]
  exact List.mem_singleton.mpr rfl

theorem amon_c4_witness :
    alookup c4State.monitors (exEvent.probe.user, exEvent.probe.monitor) =
      some ⟨["ghost", "good"]⟩ ∧
    alookup c4State.contacts (exEvent.probe.user, "ghost") = none ∧
    (∃ calls, processEvent c4State exEvent = .ok calls ∧
      (⟨exEvent.probe.name, "addr", "XXX message", "email"⟩ : NotifyCall) ∈ calls) :=
  ⟨by decide, by decide,
   amon_c4 c4State exEvent ⟨["ghost", "good"]⟩ (by decide) "good"
     ⟨"email", "addr"⟩ false (by decide) (by decide) (by decide)⟩

/-- Claim C5 (amended): the entity get and entity list paths cache
directory errors as negative entries (NoSuchObject as a cached
ResourceNotFound on the get path, any non-503 search error on the list
path) but never write a 503 Unavailable to the cache, so the next request
retries the directory; the account-by-login path has no such exemption
and caches every search error, a transient Unavailable included. -/
theorem amon_c5 {Entry Item : Type} (con : Entry → Option Item)
    (ser : Item → Entry) (g : CacheMap (CachedOne Entry))
    (l : CacheMap (CachedMany Entry)) (dn parentDn : String)
    (acache : CacheMap CachedAcct) (login : String) (e : RErr) (le : LdapErr)
    (hg : alookup g dn = none) (hl : alookup l parentDn = none)
    (ha : alookup acache login = none) (hlogin : validLogin login = true) :
    (modelGet con ser g dn false .unavailable = (.error .unavailable, g)) ∧
    (modelList con ser l parentDn .unavailable = (.error .unavailable, l)) ∧
    (modelGet con ser g dn false .noSuchObject =
      (.error (.resourceNotFound "not found"),
       aset g dn ⟨some (.resourceNotFound "not found"), none⟩)) ∧
    (modelList con ser l parentDn (.err e) =
      (.error e, aset l parentDn ⟨some e, none⟩)) ∧
    (accountFromLogin acache login (.fail le) =
      (.error le, aset acache login ⟨some le, none⟩)) := by
  refine ⟨?_, ?_, ?_, ?_, ?_⟩
  · unfold modelGet
    rw [if_neg (by simp), hg]
    rfl
  · unfold modelList
    rw [hl]
    rfl
  · unfold modelGet
    rw [if_neg (by simp), hg]
    rfl
  · unfold modelList
    rw [hl]
    rfl
  · unfold accountFromLogin
    rw [if_neg (by rw [hlogin]; simp), ha]

theorem amon_c5_witness :
    (alookup ([] : CacheMap (CachedOne Nat)) "d" = none ∧
     alookup ([] : CacheMap CachedAcct) "bob" = none ∧
     validLogin "bob" = true) ∧
    accountFromLogin [] "bob" (.fail unavailableErr) =
      (.error unavailableErr, [("bob", ⟨some unavailableErr, none⟩)]) :=
  ⟨⟨rfl, rfl, by decide⟩,
   (amon_c5 parityCon id ([] : CacheMap (CachedOne Nat))
     ([] : CacheMap (CachedMany Nat)) "d" "p" [] "bob" RErr.unavailable
     unavailableErr rfl rfl rfl (by decide)).2.2.2.2⟩

/-- Claim C5 counterexample: a transient directory-unavailable error on
the account-by-login path is written to the account cache as a negative
entry, against the claim that an Unavailable error is never written to
any cache. -/
theorem amon_c5_cex :
    (accountFromLogin [] "bob" (.fail unavailableErr)).2 =
      [("bob", ⟨some unavailableErr, none⟩)] ∧
    unavailableErr.unavailable = true := by
  constructor
  · rfl
  · rfl

theorem fromPublic_ok (pl : Registry) (d : ProbeData) (p : Probe)
    (h : Probe.fromPublic pl d = .ok p) :
    Probe.validate pl (rawOfPublic d) = .ok p.raw ∧
    p.user = d.user ∧ p.monitor = d.monitor ∧
    p.dn = Probe.dnOf d.user d.monitor d.name := by
  unfold Probe.fromPublic at h
  split_ifs at h with h1 h2 h3 h4
  cases hval : Probe.validate pl (rawOfPublic d) with
  | error e =>
    rw [hval] at h
    simp at h
  | ok raw =>
    rw [hval] at h
    injection h with h5
    subst h5
    exact ⟨rfl, rfl, rfl, rfl⟩

theorem fromUfds_ok (pl : Registry) (d : UfdsProbeData) (p : Probe)
    (h : Probe.fromUfds pl d = .ok p) :
    Probe.validate pl (rawOfUfds d) = .ok p.raw ∧
    p.user = (Probe.parseDn d.dn).1 ∧ p.monitor = (Probe.parseDn d.dn).2.1 ∧
    p.dn = d.dn ∧ validName d.amonprobe = true := by
  unfold Probe.fromUfds at h
  split_ifs at h with h1 h2
  cases hval : Probe.validate pl (rawOfUfds d) with
  | error e =>
    rw [hval] at h
    simp at h
  | ok raw =>
    rw [hval] at h
    injection h with h3
    subst h3
    exact ⟨rfl, rfl, rfl, rfl, h2⟩

theorem probeConfig_of_map (p : Probe) (o : Option JsonObj)
    (hc : p.raw.config = o.map JsonText.valid) : Probe.config p = o := by
  unfold Probe.config
  rw [hc]
  cases o <;> rfl

/-- Claim C6 (amended): a probe constructed from the public form has its
global flag equal to the runInGlobal declaration of its registered type —
in particular every probe PUT, which goes through the public form,
satisfies the claimed equation. A probe constructed from the
directory-native form keeps a truthy stored global attribute even when
its type does not declare runInGlobal: validation only ever sets the
flag, so there global equals the disjunction of the stored attribute and
the registry declaration. -/
theorem amon_c6 (pl : Registry) :
    (∀ (d : ProbeData) (p : Probe), Probe.fromPublic pl d = .ok p →
      Probe.global p = isRunInGlobal pl (Probe.type p)) ∧
    (∀ (d : UfdsProbeData) (p : Probe), Probe.fromUfds pl d = .ok p →
      Probe.global p = (d.global || isRunInGlobal pl (Probe.type p))) := by
  constructor
  · intro d p h
    obtain ⟨hval, -, -, -⟩ := fromPublic_ok pl d p h
    obtain ⟨-, -, -, htc⟩ := (validate_ok_iff pl _ _).mp hval
    have hgl := validateTypeConfig_global pl _ _ htc
    have hty := (validateTypeConfig_fields pl _ _ htc).2.1
    unfold Probe.global Probe.type
    rw [hgl, hty]
    simp [rawOfPublic]
  · intro d p h
    obtain ⟨hval, -, -, -, -⟩ := fromUfds_ok pl d p h
    obtain ⟨-, -, -, htc⟩ := (validate_ok_iff pl _ _).mp hval
    have hgl := validateTypeConfig_global pl _ _ htc
    have hty := (validateTypeConfig_fields pl _ _ htc).2.1
    unfold Probe.global Probe.type
    rw [hgl, hty]
    simp [rawOfUfds]

theorem amon_c6_witness :
    Probe.fromPublic specPlugins pubData = .ok pubProbe ∧
    Probe.global pubProbe = isRunInGlobal specPlugins (Probe.type pubProbe) :=
  ⟨by decide, (amon_c6 specPlugins).1 pubData pubProbe (by decide)⟩

/-- Claim C6 counterexample: the directory entry staleUfds (stored global
attribute truthy, type logscan) passes validation with global still true,
while the registry entry for its type does not declare runInGlobal — the
claimed equivalence fails for the directory-native form. -/
theorem amon_c6_cex :
    globalOf (Probe.fromUfds specPlugins staleUfds) = some true ∧
    (typeOf (Probe.fromUfds specPlugins staleUfds)).map
      (fun t => isRunInGlobal specPlugins t) = some false := by
  decide

/-- Claim C7 (amended): a probe constructed from the directory-native
form round-trips through serialize(internal) and the public-form
constructor with user, monitor, name, type, config, machine and server
preserved; the global flag is preserved exactly when the constructed
global flag agrees with the runInGlobal declaration of the registry entry
for the type (the public constructor recomputes global from the registry
and ignores the serialized flag). The nonemptiness hypotheses on user and
monitor say the entry DN is of the shape this system writes. -/
theorem amon_c7 (pl : Registry) (d : UfdsProbeData) (p1 : Probe)
    (h : Probe.fromUfds pl d = .ok p1)
    (hu : p1.user ≠ "") (hmo : p1.monitor ≠ "")
    (hg : Probe.global p1 = isRunInGlobal pl (Probe.type p1)) :
    ∃ p2, Probe.fromPublic pl (publicDataOf (Probe.serialize p1 true)) = .ok p2 ∧
      p2.user = p1.user ∧ p2.monitor = p1.monitor ∧
      Probe.name p2 = Probe.name p1 ∧ Probe.type p2 = Probe.type p1 ∧
      Probe.config p2 = Probe.config p1 ∧ Probe.machine p2 = Probe.machine p1 ∧
      Probe.server p2 = Probe.server p1 ∧ Probe.global p2 = Probe.global p1 := by
  obtain ⟨hval, hpu, hpm, -, hvn⟩ := fromUfds_ok pl d p1 h
  obtain ⟨hn, ht, htgt, htc⟩ := (validate_ok_iff pl (rawOfUfds d) p1.raw).mp hval
  obtain ⟨hfa, hft, hfc, hfm, hfs⟩ := validateTypeConfig_fields pl (rawOfUfds d) p1.raw htc
  obtain ⟨pt, hpt, hcfg, -⟩ := (validateTypeConfig_ok_iff pl (rawOfUfds d) p1.raw).mp htc
  have hnc : (Probe.config p1).map JsonText.valid = p1.raw.config := by
    unfold Probe.config
    cases hc : p1.raw.config with
    | none => rfl
    | some jt =>
      cases jt with
      | valid c => rfl
      | invalid s =>
        exfalso
        rw [hfc] at hc
        rw [hc] at hcfg
        exact hcfg
  have hcfg2 : (match ((Probe.config p1).map JsonText.valid : Option JsonText) with
      | none => True
      | some (.invalid _) => False
      | some (.valid c) => pt.validateConfigOk c = true) := by
    rw [hnc, hfc]
    exact hcfg
  have hgl2 : Probe.global p1 = pt.runInGlobal := by
    rw [hg]
    show isRunInGlobal pl p1.raw.type = pt.runInGlobal
    rw [hft]
    unfold isRunInGlobal
    rw [hpt]
  have hval2 : Probe.validate pl (rawOfPublic (publicDataOf (Probe.serialize p1 true))) =
      .ok (if pt.runInGlobal = true then
            { rawOfPublic (publicDataOf (Probe.serialize p1 true)) with global := true }
          else rawOfPublic (publicDataOf (Probe.serialize p1 true))) := by
    apply (validate_ok_iff pl _ _).mpr
    refine ⟨?_, ?_, ?_, ?_⟩
    · show p1.raw.amonprobe ≠ ""
      rw [hfa]
      exact hn
    · show p1.raw.type ≠ ""
      rw [hft]
      exact ht
    · show (p1.raw.machine ≠ "" ∧ p1.raw.server = "" ∧ uuidOk p1.raw.machine = true) ∨
        (p1.raw.machine = "" ∧ p1.raw.server ≠ "" ∧ uuidOk p1.raw.server = true)
      rw [hfm, hfs]
      exact htgt
    · apply (validateTypeConfig_ok_iff pl _ _).mpr
      refine ⟨pt, ?_, ?_, rfl⟩
      · show pl p1.raw.type = some pt
        rw [hft]
        exact hpt
      · exact hcfg2
  have hne1 : (publicDataOf (Probe.serialize p1 true)).name ≠ "" := by
    show p1.raw.amonprobe ≠ ""
    rw [hfa]
    exact hn
  have hne2 : (publicDataOf (Probe.serialize p1 true)).monitor ≠ "" := hmo
  have hne3 : (publicDataOf (Probe.serialize p1 true)).user ≠ "" := hu
  have hvn2 : validName (publicDataOf (Probe.serialize p1 true)).name = true := by
    show validName p1.raw.amonprobe = true
    rw [hfa]
    exact hvn
  by_cases hrg : pt.runInGlobal = true
  · rw [if_pos hrg] at hval2
    refine ⟨⟨Probe.dnOf p1.user p1.monitor p1.raw.amonprobe, p1.user, p1.monitor,
      { rawOfPublic (publicDataOf (Probe.serialize p1 true)) with global := true }⟩,
      ?_, rfl, rfl, rfl, rfl, ?_, rfl, rfl, ?_⟩
    · unfold Probe.fromPublic
      rw [if_neg hne1, if_neg hne2, if_neg hne3, if_neg (not_not_intro hvn2), hval2]
      rfl
    · exact probeConfig_of_map _ (Probe.config p1) rfl
    · show true = Probe.global p1
      rw [hgl2, hrg]
  · rw [if_neg hrg] at hval2
    refine ⟨⟨Probe.dnOf p1.user p1.monitor p1.raw.amonprobe, p1.user, p1.monitor,
      rawOfPublic (publicDataOf (Probe.serialize p1 true))⟩,
      ?_, rfl, rfl, rfl, rfl, ?_, rfl, rfl, ?_⟩
    · unfold Probe.fromPublic
      rw [if_neg hne1, if_neg hne2, if_neg hne3, if_neg (not_not_intro hvn2), hval2]
      rfl
    · exact probeConfig_of_map _ (Probe.config p1) rfl
    · show false = Probe.global p1
      rw [hgl2]
      exact (Bool.not_eq_true _).mp hrg |>.symm

theorem amon_c7_witness :
    ∃ p2, Probe.fromPublic specPlugins (publicDataOf (Probe.serialize goodP1 true)) = .ok p2 ∧
      p2.user = goodP1.user ∧ p2.monitor = goodP1.monitor ∧
      Probe.name p2 = Probe.name goodP1 ∧ Probe.type p2 = Probe.type goodP1 ∧
      Probe.config p2 = Probe.config goodP1 ∧
      Probe.machine p2 = Probe.machine goodP1 ∧
      Probe.server p2 = Probe.server goodP1 ∧
      Probe.global p2 = Probe.global goodP1 :=
  amon_c7 specPlugins goodUfds goodP1 (by decide) (by decide) (by decide) (by decide)

/-- Claim C7 counterexample: the directory entry staleUfds constructs
with global true, but the instance obtained by re-ingesting its private
serialization through the public constructor has global false — the
round trip is not an equivalence on every directory-native input. -/
theorem amon_c7_cex :
    roundTripGlobal specPlugins staleUfds = some (true, false) := by
  decide

/-- Claim C8 (code bug): when the content-md5 file for the relay target
is absent, HEAD agentprobes answers 500 InternalError — the ENOENT
empty-list branch in headAgentProbes is disabled by a constant false in
its condition, against its own adjacent comment and the claim. The GET
side behaves as claimed: a missing manifest is a 200 with an empty
array, and present files are served back as stored. -/
theorem amon_c8 :
    (@headAgentProbes SerializedProbe none = .internalError 500) ∧
    (@listAgentProbes SerializedProbe none = .okBody 200 []) ∧
    (∀ md5 : String, @headAgentProbes SerializedProbe (some md5) = .okMD5 200 md5) ∧
    (∀ body : List SerializedProbe, listAgentProbes (some body) = .okBody 200 body) :=
  ⟨rfl, rfl, fun _ => rfl, fun _ => rfl⟩

theorem modelGetFresh_skip {Entry Item : Type} (con : Entry → Option Item)
    (ser : Item → Entry) (gx : CacheMap (CachedOne Entry)) (dn : String)
    (search : UfdsOut Entry) :
    (modelGetFresh con ser gx dn true search).2 = gx ∧
    (∀ gy, (modelGetFresh con ser gx dn true search).1 =
      (modelGetFresh con ser gy dn true search).1) := by
  cases search with
  | unavailable => exact ⟨rfl, fun gy => rfl⟩
  | noSuchObject => exact ⟨rfl, fun gy => rfl⟩
  | err e => exact ⟨rfl, fun gy => rfl⟩
  | ok entries =>
    cases entries with
    | nil => exact ⟨rfl, fun gy => rfl⟩
    | cons a rest =>
      cases rest with
      | cons b rest2 => exact ⟨rfl, fun gy => rfl⟩
      | nil =>
        unfold modelGetFresh
        dsimp only
        cases con a with
        | none => exact ⟨rfl, fun gy => rfl⟩
        | some item => exact ⟨rfl, fun gy => rfl⟩

/-- Claim C9: modelDelete first fetches the entity with the cache
bypassed — the fetch neither reads (its outcome is cache-independent)
nor writes the get cache; a fetch error is returned with no directory
delete attempted and no cache change; a directory delete error is
returned with no invalidation; and only after a successful directory
delete are the get entry at the DN and the list entry at the parent DN
(available from the fetched item) invalidated. -/
theorem amon_c9 {Entry Item : Type} (con : Entry → Option Item)
    (ser : Item → Entry) (g : CacheMap (CachedOne Entry))
    (l : CacheMap (CachedMany Entry)) (dn : String) (search : UfdsOut Entry)
    (delErr : Option RErr) (parentDnOf : Item → String) :
    ((modelGet con ser g dn true search).2 = g) ∧
    (∀ g2, (modelGet con ser g dn true search).1 =
      (modelGet con ser g2 dn true search).1) ∧
    (∀ e, (modelGet con ser g dn true search).1 = .error e →
      modelDelete con ser g l dn search delErr parentDnOf = (.error e, g, l, false)) ∧
    (∀ item e, (modelGet con ser g dn true search).1 = .ok item → delErr = some e →
      modelDelete con ser g l dn search delErr parentDnOf = (.error e, g, l, true)) ∧
    (∀ item, (modelGet con ser g dn true search).1 = .ok item → delErr = none →
      modelDelete con ser g l dn search delErr parentDnOf =
        (.ok (), adel g dn, adel l (parentDnOf item), true)) := by
  have hskip : ∀ (gx : CacheMap (CachedOne Entry)),
      modelGet con ser gx dn true search = modelGetFresh con ser gx dn true search := by
    intro gx
    unfold modelGet
    rw [if_pos rfl]
  have h2 := modelGetFresh_skip con ser g dn search
  refine ⟨?_, ?_, ?_, ?_, ?_⟩
  · rw [hskip]
    exact h2.1
  · intro g2
    rw [hskip, hskip]
    exact h2.2 g2
  · intro e he
    have hpair : modelGet con ser g dn true search = (.error e, g) := by
      rw [Prod.ext_iff]
      exact ⟨he, by rw [hskip]; exact h2.1⟩
    unfold modelDelete
    rw [hpair]
  · intro item e he hd
    have hpair : modelGet con ser g dn true search = (.ok item, g) := by
      rw [Prod.ext_iff]
      exact ⟨he, by rw [hskip]; exact h2.1⟩
    unfold modelDelete
    rw [hpair, hd]
  · intro item he hd
    have hpair : modelGet con ser g dn true search = (.ok item, g) := by
      rw [Prod.ext_iff]
      exact ⟨he, by rw [hskip]; exact h2.1⟩
    unfold modelDelete
    rw [hpair, hd]

theorem amon_c9_witness :
    (modelGet parityCon id staleGetCache "d" true (.ok [4])).1 = .ok 4 ∧
    modelDelete parityCon id staleGetCache staleListCache "d" (.ok [4]) none
        (fun _ => "parent") =
      (.ok (), adel staleGetCache "d", adel staleListCache "parent", true) :=
  ⟨by decide,
   (amon_c9 parityCon id staleGetCache staleListCache "d" (.ok [4]) none
     (fun _ => "parent")).2.2.2.2 4 (by decide) rfl⟩

/-- Claim C10: a list request whose directory search succeeds returns
exactly the entries that construct successfully — entries whose model
construction throws are skipped (and logged), never failing the whole
request — and caches the survivors. -/
theorem amon_c10 {Entry Item : Type} (con : Entry → Option Item)
    (ser : Item → Entry) (l : CacheMap (CachedMany Entry)) (parentDn : String)
    (entries : List Entry) (hmiss : alookup l parentDn = none) :
    modelList con ser l parentDn (.ok entries) =
      (.ok (entries.filterMap con),
       aset l parentDn ⟨none, some ((entries.filterMap con).map ser)⟩) := by
  unfold modelList
  rw [hmiss]
  rfl

theorem amon_c10_witness :
    alookup ([] : CacheMap (CachedMany Nat)) "p" = none ∧
    modelList parityCon id [] "p" (.ok [1, 2, 3, 4]) =
      (.ok ([1, 2, 3, 4].filterMap parityCon),
       aset [] "p" ⟨none, some (([1, 2, 3, 4].filterMap parityCon).map id)⟩) :=
  ⟨rfl, amon_c10 parityCon id [] "p" [1, 2, 3, 4] rfl⟩
